import Mathlib

/-!
# Verification of the `ty-ras/extras` resource pool

A shallow embedding of the resource-pool core (`pool.ts`, `factory.ts`,
`administration.ts`, `retry.ts`) of the `ty-ras/extras` repository,
together with theorems settling the specification claims.

Modelling conventions:
* JavaScript numbers used as counts/timestamps are embedded as `Int`
  (timestamps from `Date.now()` are passed explicitly as arguments).
* The slot array `Array<Resource<T> | undefined | null>` becomes a
  `List` of a three-way sum: a `Resource` object, the `undefined`
  marker (slot reserved, creation in flight), or the `null` marker
  (slot empty / free to take).
* Thrown errors become explicit `PoolError` values; `Promise<T>` results
  become `Except PoolError T`.  The error classes of the repository's
  `errors.ts` module (`ResourcePoolFullError`, `ResourceNotPartOfPoolError`,
  `NoMoreRetriesLeftError`) become constructors of one inductive type;
  `common.toError` is the identity in this embedding since errors are
  already values.  `otherError` stands for any other `Error` instance
  (e.g. one thrown by a user-supplied `create` callback).
* The synchronous prefix of `acquire` (everything before the `await` in
  `acquireAsync`) is one function `acquire`; the continuation that runs
  when the creation callback settles is `acquireAsync`.  This mirrors the
  single-threaded cooperative scheduling of the source: each of the two
  functions is one uninterruptible step.
-/

namespace TyRasExtras

/-- Errors of the resource-pool package (`errors.ts`).  `otherError` stands
for arbitrary foreign `Error` objects, distinguished by a numeric tag. -/
inductive PoolError where
  | resourcePoolFull (message : String)
  | resourceNotPartOfPool (message : String)
  | noMoreRetriesLeft (attemptCount : Nat) (cause : PoolError)
  | otherError (tag : Nat)
deriving Repr, DecidableEq

/-- The `instanceof errors.ResourcePoolFullError` check. -/
def PoolError.isResourcePoolFull : PoolError → Bool
  | .resourcePoolFull _ => true
  | _ => false

/-- The `Resource<T>` class of `pool.ts`/`state.ts`: the pooled value plus
`returnedAt` (`none` = currently in use, `some t` = idle since time `t`). -/
structure Resource (T : Type) where
  resource : T
  returnedAt : Option Int := none
deriving Repr, DecidableEq

/-- `ResourcePoolStateArrayItem<T> = Resource<T> | undefined | null`.
`reservedSlot` is the `undefined` marker (slot reserved, asynchronous
creation callback pending); `emptySlot` is the `null` marker (a previous
creation failed, slot free to take). -/
inductive ResourcePoolStateArrayItem (T : Type) where
  | res (r : Resource T)
  | reservedSlot
  | emptySlot
deriving Repr, DecidableEq

/-- The `ResourcePoolState<T>` record. -/
structure ResourcePoolState (T : Type) where
  resources : List (ResourcePoolStateArrayItem T)
  minCount : Int
  maxCount : Option Int
  equality : T → T → Bool

namespace ResourcePool

open ResourcePoolStateArrayItem

/-- The predicate `(r) => r && r.returnedAt !== undefined` used by
`createAcquire`'s `findIndex`: the slot holds a resource that is idle
(Occupied-Free). -/
def isAvailableForReuse {T : Type} : ResourcePoolStateArrayItem T → Bool
  | .res r => r.returnedAt.isSome
  | _ => false

/-- The predicate `(r) => r === null` used by `indexOf(null)`. -/
def isEmptySlot {T : Type} : ResourcePoolStateArrayItem T → Bool
  | .emptySlot => true
  | _ => false

/-- `getCurrentResourceCount` of `pool.ts`: the `reduce` counting the
entries other than `null`. -/
def getCurrentResourceCount {T : Type}
    (array : List (ResourcePoolStateArrayItem T)) : Nat :=
  array.foldl
    (fun nonNullCount r => nonNullCount + (if isEmptySlot r then 0 else 1)) 0

/-- `isRoomForResource` of `pool.ts`:
`maxCount === undefined || array.length < maxCount || count < maxCount`. -/
def isRoomForResource {T : Type} (maxCount : Option Int)
    (array : List (ResourcePoolStateArrayItem T)) : Bool :=
  match maxCount with
  | none => true
  | some m =>
      decide ((array.length : Int) < m)
        || decide ((getCurrentResourceCount array : Int) < m)

/-- JavaScript array element assignment `array[i] = v` as used by the pool:
`i` is always at most `array.length`; assignment at `array.length`
appends. -/
def setSlot {T : Type} (array : List (ResourcePoolStateArrayItem T))
    (i : Nat) (v : ResourcePoolStateArrayItem T) :
    List (ResourcePoolStateArrayItem T) :=
  if i < array.length then array.set i v else array ++ [v]

/-- The observable outcome of the synchronous prefix of one `acquire()`
call (the closure created by `createAcquire`):
* `reused r`: an Occupied-Free slot was found; its value is returned in an
  already-resolved promise, no creation callback is invoked;
* `failure e`: the call threw synchronously (pool at max capacity), the
  creation callback is not invoked;
* `creationStarted idx`: slot `idx` was reserved and the asynchronous
  creation callback was invoked; the call's promise settles later via
  `acquireAsync`. -/
inductive AcquireSyncOutcome (T : Type) where
  | reused (resource : T)
  | failure (error : PoolError)
  | creationStarted (index : Nat)
deriving Repr

/-- The synchronous prefix of the closure created by `createAcquire`
(`pool.ts`): scan for the first Occupied-Free slot; if found mark it busy
and resolve with its value; else check capacity (throwing
`ResourcePoolFullError` when full); else reserve the first `null` slot
(or a fresh index at the end) and start the asynchronous creation. -/
def acquire {T : Type} (poolState : ResourcePoolState T) :
    AcquireSyncOutcome T × ResourcePoolState T :=
  let existingIndex :=
    poolState.resources.findIdx isAvailableForReuse
  if hIdx : existingIndex < poolState.resources.length then
    match poolState.resources.get ⟨existingIndex, hIdx⟩ with
    | .res existing =>
        (.reused existing.resource,
         { poolState with
             resources :=
               poolState.resources.set existingIndex
                 (.res { existing with returnedAt := none }) })
    | _ =>
        -- the `?? doThrow("Internal error: ...")` branch; unreachable
        (.failure (.otherError 0), poolState)
  else
    if isRoomForResource poolState.maxCount poolState.resources then
      let thisIndex := poolState.resources.findIdx isEmptySlot
      (.creationStarted thisIndex,
       { poolState with
           resources := setSlot poolState.resources thisIndex .reservedSlot })
    else
      (.failure (.resourcePoolFull "Resource pool max capacity reached"),
       poolState)

/-- `acquireAsync` of `pool.ts`, resumed at the point where the creation
callback has settled with `created`: on success store a fresh
`Resource` object (busy, `returnedAt` unset) at `currentIndex` and resolve
with the value; on failure set the slot to `null` and rethrow. -/
def acquireAsync {T : Type} (poolState : ResourcePoolState T)
    (currentIndex : Nat) (created : Except PoolError T) :
    Except PoolError T × ResourcePoolState T :=
  match created with
  | .ok resource =>
      (.ok resource,
       { poolState with
           resources :=
             setSlot poolState.resources currentIndex (.res ⟨resource, none⟩) })
  | .error e =>
      (.error e,
       { poolState with
           resources := setSlot poolState.resources currentIndex .emptySlot })

/-- The predicate of `createRelease`'s `find`:
`r && r.returnedAt === undefined && equality(r.resource, resource)`
(an Occupied-Busy slot whose value equality-matches the one returned). -/
def releasePred {T : Type} (equality : T → T → Bool) (resource : T) :
    ResourcePoolStateArrayItem T → Bool
  | .res robj => robj.returnedAt.isNone && equality robj.resource resource
  | _ => false

/-- The closure created by `createRelease` (`pool.ts`): find the first
Occupied-Busy slot equality-matching `resource`; if none, throw
`ResourceNotPartOfPoolError`; else stamp its `returnedAt` with the current
time `now`. -/
def release {T : Type} (poolState : ResourcePoolState T) (resource : T)
    (now : Int) : Except PoolError Unit × ResourcePoolState T :=
  let idx :=
    poolState.resources.findIdx (releasePred poolState.equality resource)
  if hIdx : idx < poolState.resources.length then
    match poolState.resources.get ⟨idx, hIdx⟩ with
    | .res robj =>
        (.ok (),
         { poolState with
             resources :=
               poolState.resources.set idx
                 (.res { robj with returnedAt := some now }) })
    | _ =>
        -- unreachable: `releasePred` holds only for `Resource` objects
        (.error (.otherError 0), poolState)
  else
    (.error (.resourceNotPartOfPool "Given resource was not part of this pool"),
     poolState)

end ResourcePool

namespace Administration

open ResourcePool ResourcePoolStateArrayItem

/-- The input record of a `ResourceIdleTimeCustomizationFunction<T>`. -/
structure ResourceIdleTimeCustomizationFunctionInput (T : Type) where
  returnedAt : Int
  now : Int
  resource : T

/-- `ResourceIdleTimeCustomization<T>`: either a plain millisecond count or
a custom predicate. -/
inductive ResourceIdleTimeCustomization (T : Type) where
  | idleTimeMs (ms : Int)
  | custom (f : ResourceIdleTimeCustomizationFunctionInput T → Bool)

/-- The `shouldEvict` dispatch at the top of `createRunEviction`
(`administration.ts`): a number `ms` becomes the predicate
`({ returnedAt, now }) => now - returnedAt >= ms`. -/
def toShouldEvict {T : Type} :
    ResourceIdleTimeCustomization T →
      (ResourceIdleTimeCustomizationFunctionInput T → Bool)
  | .idleTimeMs ms => fun input => decide (input.now - input.returnedAt ≥ ms)
  | .custom f => f

/-- The `reduce` of `createRunEviction`, building `toBeEvicted` and
`toBeRetained` by scanning the slots in index order (`idx` is the index of
the head of the remaining list).  A slot is evicted when
`idx >= minCount && r && r.returnedAt !== undefined && shouldEvict(...)`;
otherwise it is retained when `r !== null`. -/
def evictionPartition {T : Type} (minCount : Int)
    (shouldEvict : ResourceIdleTimeCustomizationFunctionInput T → Bool)
    (now : Int) :
    List (ResourcePoolStateArrayItem T) → Nat →
      List T × List (ResourcePoolStateArrayItem T)
  | [], _ => ([], [])
  | r :: rest, idx =>
    let tail := evictionPartition minCount shouldEvict now rest (idx + 1)
    match r with
    | .res robj =>
        match robj.returnedAt with
        | some returnedAt =>
            if decide ((idx : Int) ≥ minCount)
                && shouldEvict ⟨returnedAt, now, robj.resource⟩ then
              (robj.resource :: tail.1, tail.2)
            else
              (tail.1, r :: tail.2)
        | none => (tail.1, r :: tail.2)
    | .reservedSlot => (tail.1, r :: tail.2)
    | .emptySlot => (tail.1, tail.2)

/-- `EvictionResult` of `api.ts`; `errors` collects the failures of the
individual `destroy` calls. -/
structure EvictionResult where
  resourcesDeleted : Nat
  errors : List PoolError
deriving Repr, DecidableEq

/-- The closure created by `createRunEviction` (`administration.ts`).
`now` is the single `Date.now()` snapshot taken at sweep start; `destroy`
models the destroy callback, `some e` meaning it threw `e` for that
resource and `none` meaning it succeeded.  The slot sequence is replaced
by the retained slots synchronously, before the destroy calls are awaited;
each destroy failure is caught individually (`common.toError`) and
collected, so the function itself never throws. -/
def runEviction {T : Type} (poolState : ResourcePoolState T)
    (resourceIdleTime : ResourceIdleTimeCustomization T) (now : Int)
    (destroy : T → Option PoolError) :
    EvictionResult × ResourcePoolState T :=
  let shouldEvict := toShouldEvict resourceIdleTime
  let partition :=
    evictionPartition poolState.minCount shouldEvict now poolState.resources 0
  let destroyResults := partition.1.map destroy
  (⟨destroyResults.length, destroyResults.filterMap id⟩,
   { poolState with resources := partition.2 })

end Administration

namespace Factory

open ResourcePool

/-- `ResourcePoolCreationOptions<T>` of the factory file, restricted to the
fields that determine the constructed pool state (the `create`/`destroy`
callbacks are merely stored and are passed separately to the operations in
this embedding).  `none` models an absent optional property. -/
structure ResourcePoolCreationOptions (T : Type) where
  minCount : Option Int := none
  maxCount : Option Int := none
  equality : Option (T → T → Bool) := none

/-- `_createResourcePool` of the factory file (the current generation,
with the capacity validation): throws when
`maxCount !== undefined && maxCount < minCount`, otherwise builds the
initial pool state with an empty slot array.  The returned
pool/administration closures are all determined by this state, which is
what the embedding returns. -/
def _createResourcePool {T : Type} (minCount : Int) (maxCount : Option Int)
    (equality : T → T → Bool) : Except String (ResourcePoolState T) :=
  if (match maxCount with
      | some m => decide (m < minCount)
      | none => false) then
    .error "The given maximum count was less than given min count."
  else
    .ok { resources := [], minCount, maxCount, equality }

/-- `createSimpleResourcePool`: applies the defaults
(`minCount: 0`, `equality: (x, y) => x === y`) via
`Object.assign({}, defaultOptions, opts)` and calls
`_createResourcePool`. -/
def createSimpleResourcePool {T : Type} [BEq T]
    (opts : ResourcePoolCreationOptions T) :
    Except String (ResourcePoolState T) :=
  _createResourcePool (opts.minCount.getD 0) opts.maxCount
    (opts.equality.getD (fun x y => x == y))

end Factory

namespace Retry

/-- `RetryParameters` of `retry.ts`. -/
structure RetryParameters where
  waitBeforeRetryMs : Int
deriving Repr, DecidableEq

/-- `StaticRetryFunctionality = RetryParameters & { retryCount: number }`. -/
structure StaticRetryFunctionality extends RetryParameters where
  retryCount : Int
deriving Repr, DecidableEq

/-- The input of a `DynamicRetryFunctionality`; `attemptCount` is 1-based. -/
structure DynamicRetryFunctionalityArgs where
  error : PoolError
  attemptCount : Nat

/-- `DynamicRetryFunctionality`: returns either `RetryParameters`
(`Sum.inl`, retry after waiting) or an `Error` (`Sum.inr`, final). -/
def DynamicRetryFunctionality :=
  DynamicRetryFunctionalityArgs → Sum RetryParameters PoolError

/-- `RetryFunctionality = StaticRetryFunctionality | DynamicRetryFunctionality`
(the `typeof retryFunctionality === "function"` distinction). -/
inductive RetryFunctionality where
  | static (s : StaticRetryFunctionality)
  | dynamic (d : DynamicRetryFunctionality)

/-- `dynamicFromStatic` of `retry.ts`: clamp `retryCount` at `0`; when the
clamped count is positive, build the policy that reacts only to
`ResourcePoolFullError` (retrying while the 1-based `attemptCount` is at
most the clamped count, then failing with `NoMoreRetriesLeftError`), and
passes any other error through as final; otherwise yield `undefined`. -/
def dynamicFromStatic (s : StaticRetryFunctionality) :
    Option DynamicRetryFunctionality :=
  let retryCount := max s.retryCount 0
  if retryCount > 0 then
    some (fun args =>
      if args.error.isResourcePoolFull then
        if (args.attemptCount : Int) > retryCount then
          .inr (.noMoreRetriesLeft args.attemptCount args.error)
        else
          .inl ⟨s.waitBeforeRetryMs⟩
      else
        .inr args.error)
  else
    none

/-- The `getRetryInfo` computation at the top of `augmentWithRetry`:
a dynamic functionality is used as-is, a static one goes through
`dynamicFromStatic`. -/
def getRetryInfo : RetryFunctionality → Option DynamicRetryFunctionality
  | .dynamic d => some d
  | .static s => dynamicFromStatic s

/-- The `do`/`while` loop body of `acquireWithRetry` (`retry.ts`).
`acquire k` is the outcome of the `k`-th underlying `acquire` invocation
of this run (1-based, matching `attemptCount`); `fuel` bounds the number
of iterations (a `none` result means the bound was hit, which never
happens for the policies of the settled claims).  The result carries the
final outcome together with the total number of underlying invocations
performed.  The `waitBeforeRetryMs` delay between attempts only suspends,
so it is invisible in this functional model. -/
def acquireWithRetryGo {T : Type} (acquire : Nat → Except PoolError T)
    (retryFunctionality : DynamicRetryFunctionality) :
    Nat → Nat → Option (Except PoolError T × Nat)
  | 0, _ => none
  | fuel + 1, attemptCount =>
    match acquire attemptCount with
    | .ok r => some (.ok r, attemptCount)
    | .error e =>
      match retryFunctionality ⟨e, attemptCount⟩ with
      | .inr finalError => some (.error finalError, attemptCount)
      | .inl _retryParams =>
          acquireWithRetryGo acquire retryFunctionality fuel (attemptCount + 1)

/-- `acquireWithRetry` of `retry.ts`: run the loop starting at
`attemptCount = 1`. -/
def acquireWithRetry {T : Type} (acquire : Nat → Except PoolError T)
    (retryFunctionality : DynamicRetryFunctionality) (fuel : Nat) :
    Option (Except PoolError T × Nat) :=
  acquireWithRetryGo acquire retryFunctionality fuel 1

/-- A plain (undecorated) `ResourcePool` object: its `acquire` is modelled
as the outcome of its successive invocations within one retry run
(`acquire k` = outcome of the `k`-th invocation), its `release` as a
function on the returned resource. -/
structure PlainPool (T : Type) where
  acquire : Nat → Except PoolError T
  release : T → Except PoolError Unit

/-- A `ResourcePool` object as seen by `retry.ts`: either a plain pool or
an instance of the `PoolWithRetryFunctionality` class, which stores the
undecorated pool in its `__originalPool` field.  `augmentWithRetry` (the
only place the class is instantiated) always unwraps its argument with
`getOriginalPool` first, so `__originalPool` is always undecorated. -/
inductive ResourcePoolObject (T : Type) where
  | plain (p : PlainPool T)
  | withRetryFunctionality (originalPool : PlainPool T)
      (retryFunctionality : DynamicRetryFunctionality)

/-- `poolIsWithRetryFunctionality`:
`pool instanceof PoolWithRetryFunctionality`. -/
def poolIsWithRetryFunctionality {T : Type} : ResourcePoolObject T → Bool
  | .withRetryFunctionality _ _ => true
  | .plain _ => false

/-- `getOriginalPool` of `retry.ts`: unwrap one `PoolWithRetryFunctionality`
layer (which is the only layer that can exist). -/
def getOriginalPool {T : Type} : ResourcePoolObject T → PlainPool T
  | .withRetryFunctionality originalPool _ => originalPool
  | .plain p => p

/-- `augmentWithRetry` of `retry.ts`: when `getRetryInfo` yields a policy,
construct `new PoolWithRetryFunctionality(getOriginalPool(pool), policy)`;
otherwise return the given pool unchanged. -/
def augmentWithRetry {T : Type} (pool : ResourcePoolObject T)
    (retryFunctionality : RetryFunctionality) : ResourcePoolObject T :=
  match getRetryInfo retryFunctionality with
  | some getRetryInfoFn =>
      .withRetryFunctionality (getOriginalPool pool) getRetryInfoFn
  | none => pool

/-- The `release` member of a pool object: the
`PoolWithRetryFunctionality` constructor sets
`this.release = __originalPool.release`. -/
def ResourcePoolObject.releaseFn {T : Type} :
    ResourcePoolObject T → (T → Except PoolError Unit)
  | .plain p => p.release
  | .withRetryFunctionality originalPool _ => originalPool.release

/-- One invocation of the `acquire` member of a pool object: for a plain
pool it is one underlying invocation; for a decorated pool the constructor
set `this.acquire = (args) => acquireWithRetry(__originalPool.acquire, ...)`,
i.e. the retry loop over the undecorated pool's acquire. -/
def ResourcePoolObject.runAcquire {T : Type} :
    ResourcePoolObject T → Nat → Option (Except PoolError T × Nat)
  | .plain p, _ => some (p.acquire 1, 1)
  | .withRetryFunctionality originalPool retryFunctionality, fuel =>
      acquireWithRetry originalPool.acquire retryFunctionality fuel

end Retry

end TyRasExtras

open TyRasExtras TyRasExtras.ResourcePool TyRasExtras.Administration
open TyRasExtras.Factory TyRasExtras.Retry

/-! ## Specification-side predicates for the eviction sweep -/

/-- Extract the resource value stored in a slot, when the slot holds one. -/
def slotResource? {T : Type} : ResourcePoolStateArrayItem T → Option T
  | .res robj => some robj.resource
  | _ => none

/-- The specification's eviction-eligibility condition, written from the
spec's words: the positional index is at least `minCount`, the slot is
Occupied-Free, and the idle policy accepts `{resource, returnedAt, now}`. -/
def eligibleForEviction {T : Type} (minCount : Int)
    (shouldEvict : ResourceIdleTimeCustomizationFunctionInput T → Bool)
    (now : Int) (idx : Nat) : ResourcePoolStateArrayItem T → Bool
  | .res robj =>
      match robj.returnedAt with
      | some returnedAt =>
          decide ((idx : Int) ≥ minCount)
            && shouldEvict ⟨returnedAt, now, robj.resource⟩
      | none => false
  | _ => false

/-! ## Concrete demonstration states used by claim witnesses -/

/-- A pool state with a single Occupied-Busy slot holding value `5`. -/
def demoBusyState : ResourcePoolState Nat :=
  ⟨[.res ⟨5, none⟩], 0, none, fun x y => x == y⟩

/-- A pool state with a single Occupied-Free slot holding value `5`,
returned at time `50`. -/
def demoFreeState : ResourcePoolState Nat :=
  ⟨[.res ⟨5, some 50⟩], 0, none, fun x y => x == y⟩

/-- Like `demoFreeState`, but with `minCount = 1`: the positional eviction
floor protects index 0, so its single Occupied-Free slot is never
evicted. -/
def demoFloorState : ResourcePoolState Nat :=
  ⟨[.res ⟨5, some 50⟩], 1, none, fun x y => x == y⟩

/-- The two-concurrent-acquire scenario of C1: an empty unbounded pool. -/
def scenario0 : ResourcePoolState Nat := ⟨[], 0, none, fun x y => x == y⟩

/-- After the first acquire reserved index 0. -/
def scenario1 : ResourcePoolState Nat :=
  ⟨[.reservedSlot], 0, none, fun x y => x == y⟩

/-- After the second acquire reserved index 1. -/
def scenario2 : ResourcePoolState Nat :=
  ⟨[.reservedSlot, .reservedSlot], 0, none, fun x y => x == y⟩

/-- After the first creation failed: its slot is Empty again, the other
reservation untouched. -/
def scenario3 : ResourcePoolState Nat :=
  ⟨[.emptySlot, .reservedSlot], 0, none, fun x y => x == y⟩

/-- After the second creation succeeded with `42`. -/
def scenario4 : ResourcePoolState Nat :=
  ⟨[.emptySlot, .res ⟨42, none⟩], 0, none, fun x y => x == y⟩

/-- The policy that `dynamicFromStatic` yields for
`{retryCount: 1, waitBeforeRetryMs: 0}` (written out so the witness can
name it). -/
def demoStaticPolicy : DynamicRetryFunctionality := fun args =>
  if args.error.isResourcePoolFull then
    if (args.attemptCount : Int) > max (1 : Int) 0 then
      .inr (.noMoreRetriesLeft args.attemptCount args.error)
    else
      .inl ⟨0⟩
  else
    .inr args.error

/-- A trivial undecorated pool used by the C9/C10 demonstration objects. -/
def demoPlainPool : PlainPool Nat :=
  ⟨fun _ => .error (.resourcePoolFull "full"), fun _ => .ok ()⟩

/-- A pool that is already retry-augmented (its policy passes every error
through as final). -/
def demoWrappedPool : ResourcePoolObject Nat :=
  .withRetryFunctionality demoPlainPool (fun args => .inr args.error)

/-- A static retry configuration with `retryCount = 0`. -/
def demoZeroRetryConfig : StaticRetryFunctionality := ⟨⟨0⟩, 0⟩

/-! ## Helper lemmas about the slot bookkeeping -/

theorem getCurrentResourceCount_foldl_shift {T : Type}
    (l : List (ResourcePoolStateArrayItem T)) (n : Nat) :
    l.foldl (fun acc r => acc + (if isEmptySlot r then 0 else 1)) n
      = n + l.foldl (fun acc r => acc + (if isEmptySlot r then 0 else 1)) 0 := by
  induction l generalizing n with
  | nil => simp
  | cons r rest ih =>
      simp only [List.foldl_cons]
      rw [ih, ih (0 + _)]
      omega

theorem getCurrentResourceCount_cons {T : Type}
    (r : ResourcePoolStateArrayItem T) (l : List (ResourcePoolStateArrayItem T)) :
    getCurrentResourceCount (r :: l)
      = (if isEmptySlot r then 0 else 1) + getCurrentResourceCount l := by
  unfold getCurrentResourceCount
  simp only [List.foldl_cons]
  rw [getCurrentResourceCount_foldl_shift]
  omega

theorem getCurrentResourceCount_le_length {T : Type}
    (l : List (ResourcePoolStateArrayItem T)) :
    getCurrentResourceCount l ≤ l.length := by
  induction l with
  | nil => simp [getCurrentResourceCount]
  | cons r rest ih =>
      rw [getCurrentResourceCount_cons]
      cases h : isEmptySlot r <;> simp [List.length_cons] <;> omega

/-- When no slot is Occupied-Free and the pool is at capacity,
`isRoomForResource` reports `false`. -/
theorem isRoomForResource_eq_false {T : Type} (m : Int)
    (l : List (ResourcePoolStateArrayItem T))
    (hCount : (getCurrentResourceCount l : Int) ≥ m) :
    isRoomForResource (some m) l = false := by
  unfold isRoomForResource
  have hle := getCurrentResourceCount_le_length l
  simp only [Bool.or_eq_false_iff, decide_eq_false_iff_not, not_lt]
  constructor
  · calc m ≤ (getCurrentResourceCount l : Int) := hCount
      _ ≤ (l.length : Int) := by exact_mod_cast hle
  · exact hCount

/-- `acquire` when no slot is Occupied-Free and the pool is at capacity:
the `ResourcePoolFullError` branch, leaving the state untouched. -/
theorem acquire_eq_poolFull {T : Type} (poolState : ResourcePoolState T)
    (m : Int)
    (hNoFree : ∀ r ∈ poolState.resources, isAvailableForReuse r = false)
    (hMax : poolState.maxCount = some m)
    (hCount : (getCurrentResourceCount poolState.resources : Int) ≥ m) :
    acquire poolState
      = (.failure (.resourcePoolFull "Resource pool max capacity reached"),
         poolState) := by
  have hfind : poolState.resources.findIdx isAvailableForReuse
      = poolState.resources.length := List.findIdx_eq_length.mpr hNoFree
  have hroom : isRoomForResource poolState.maxCount poolState.resources
      = false := by
    rw [hMax]
    exact isRoomForResource_eq_false m _ hCount
  unfold acquire
  rw [hfind, dif_neg (lt_irrefl _), hroom]
  simp

/-- `release` when some Occupied-Busy slot equality-matches: the slot at the
first matching index gets its `returnedAt` stamped. -/
theorem release_eq_of_found {T : Type} (poolState : ResourcePoolState T)
    (resource : T) (now : Int) (i : Nat)
    (hi : i < poolState.resources.length) (robj : Resource T)
    (hfind : poolState.resources.findIdx
        (releasePred poolState.equality resource) = i)
    (hget : poolState.resources.get ⟨i, hi⟩ = .res robj) :
    release poolState resource now
      = (.ok (),
         { poolState with
             resources :=
               poolState.resources.set i
                 (.res { robj with returnedAt := some now }) }) := by
  unfold release
  rw [hfind, dif_pos hi, hget]

/-- `release` when no Occupied-Busy slot equality-matches: the
`ResourceNotPartOfPoolError` branch, leaving the state untouched. -/
theorem release_eq_of_not_found {T : Type} (poolState : ResourcePoolState T)
    (resource : T) (now : Int)
    (hNoMatch : ∀ r ∈ poolState.resources,
        releasePred poolState.equality resource r = false) :
    release poolState resource now
      = (.error
           (.resourceNotPartOfPool "Given resource was not part of this pool"),
         poolState) := by
  unfold release
  rw [List.findIdx_eq_length.mpr hNoMatch, dif_neg (lt_irrefl _)]

/-- `acquire` when an Occupied-Free slot exists: the slot at the first such
index is marked busy and its value returned. -/
theorem acquire_eq_of_found_free {T : Type} (poolState : ResourcePoolState T)
    (i : Nat) (hi : i < poolState.resources.length) (robj : Resource T)
    (hfind : poolState.resources.findIdx isAvailableForReuse = i)
    (hget : poolState.resources.get ⟨i, hi⟩ = .res robj) :
    acquire poolState
      = (.reused robj.resource,
         { poolState with
             resources :=
               poolState.resources.set i
                 (.res { robj with returnedAt := none }) }) := by
  unfold acquire
  rw [hfind, dif_pos hi, hget]

/-- Setting index `i` of a list in which no element satisfies `p` to an
element that does satisfy `p` makes `i` the first index satisfying `p`. -/
theorem findIdx_set_of_all_false {α : Type} (l : List α) (p : α → Bool)
    (i : Nat) (v : α) (hall : ∀ r ∈ l, p r = false) (hv : p v = true)
    (hi : i < l.length) : (l.set i v).findIdx p = i := by
  induction l generalizing i with
  | nil => simp at hi
  | cons a rest ih =>
      cases i with
      | zero => simp [List.findIdx_cons, hv]
      | succ j =>
          have ha : p a = false := hall a (List.mem_cons_self a rest)
          simp only [List.set_cons_succ, List.findIdx_cons, ha, cond_false]
          rw [ih j (fun r hr => hall r (List.mem_cons_of_mem a hr)) (by
            simpa using hi)]

/-! ## Claim theorems -/

/-- **C2.** When no slot is Occupied-Free and `maxCount` is set with the
non-Empty count at or above it, `acquire` fails synchronously with
`ResourcePoolFullError` without touching the slot sequence (the outcome is
not `creationStarted`, so the create callback is never invoked); in
particular a pool constructed with `maxCount = 0` fails this way on its
very first `acquire` (and `destroy` is only ever invoked by `runEviction`,
which removes nothing from an empty pool). -/
theorem claim_C2_acquire_poolFull_at_capacity {T : Type}
    (poolState : ResourcePoolState T) (m : Int)
    (hNoFree : ∀ r ∈ poolState.resources, isAvailableForReuse r = false)
    (hMax : poolState.maxCount = some m)
    (hCount : (getCurrentResourceCount poolState.resources : Int) ≥ m) :
    (acquire poolState
        = (.failure (.resourcePoolFull "Resource pool max capacity reached"),
           poolState))
    ∧ createSimpleResourcePool (T := Nat) { maxCount := some 0 }
        = .ok { resources := [], minCount := 0, maxCount := some 0,
                equality := fun x y => x == y }
    ∧ acquire (T := Nat)
        { resources := [], minCount := 0, maxCount := some 0,
          equality := fun x y => x == y }
        = (.failure (.resourcePoolFull "Resource pool max capacity reached"),
           { resources := [], minCount := 0, maxCount := some 0,
             equality := fun x y => x == y }) :=
  ⟨acquire_eq_poolFull poolState m hNoFree hMax hCount, rfl, rfl⟩

/-- Witness for C2: a pool with one Reserved slot and `maxCount = 1` is at
capacity, so `acquire` fails with `ResourcePoolFullError` and leaves the
state unchanged. -/
theorem claim_C2_witness :
    acquire (T := Nat)
      { resources := [.reservedSlot], minCount := 0, maxCount := some 1,
        equality := fun x y => x == y }
      = (.failure (.resourcePoolFull "Resource pool max capacity reached"),
         { resources := [.reservedSlot], minCount := 0, maxCount := some 1,
           equality := fun x y => x == y }) :=
  (claim_C2_acquire_poolFull_at_capacity
    { resources := [.reservedSlot], minCount := 0, maxCount := some 1,
      equality := fun x y => x == y }
    1 (by decide) rfl (by decide)).1

/-- **C6.** `createSimpleResourcePool` (current-generation factory, the one
with the capacity validation) fails at construction exactly when `maxCount`
is present and below the (defaulted) `minCount`, and otherwise succeeds,
producing the initial pool state with an empty slot sequence. -/
theorem claim_C6_factory_validates {T : Type} [BEq T]
    (opts : ResourcePoolCreationOptions T) :
    (∀ m, opts.maxCount = some m → m < opts.minCount.getD 0 →
        createSimpleResourcePool opts
          = .error "The given maximum count was less than given min count.")
    ∧ ((∀ m, opts.maxCount = some m → opts.minCount.getD 0 ≤ m) →
        createSimpleResourcePool opts
          = .ok { resources := [], minCount := opts.minCount.getD 0,
                  maxCount := opts.maxCount,
                  equality := opts.equality.getD (fun x y => x == y) }) := by
  constructor
  · intro m hm hlt
    unfold createSimpleResourcePool _createResourcePool
    rw [hm]
    simp [hlt]
  · intro h
    unfold createSimpleResourcePool _createResourcePool
    cases hm : opts.maxCount with
    | none => simp
    | some m =>
        have hle := h m hm
        simp [not_lt.mpr hle]

/-- Witness for C6: `minCount = 1, maxCount = 0` is rejected while
`minCount = 1, maxCount = 2` constructs the empty initial state. -/
theorem claim_C6_witness :
    createSimpleResourcePool (T := Nat) { minCount := some 1, maxCount := some 0 }
        = .error "The given maximum count was less than given min count."
    ∧ createSimpleResourcePool (T := Nat) { minCount := some 1, maxCount := some 2 }
        = .ok { resources := [], minCount := 1, maxCount := some 2,
                equality := fun x y => x == y } := by
  constructor
  · exact (claim_C6_factory_validates
      { minCount := some 1, maxCount := some 0 }).1 0 rfl (by decide)
  · exact (claim_C6_factory_validates
      { minCount := some 1, maxCount := some 2 }).2
      (fun m hm => by injection hm with h; subst h; decide)

/-- **C7.** `release` fails with `ResourceNotPartOfPoolError` exactly when
no slot is Occupied-Busy with an equality-matching value, and on that
failure the state is completely unchanged; when the first matching slot
exists, it is transitioned to Occupied-Free with `returnedAt` stamped to
the current time. -/
theorem claim_C7_release_not_part_of_pool {T : Type}
    (poolState : ResourcePoolState T) (resource : T) (now : Int) :
    ((∀ r ∈ poolState.resources,
        releasePred poolState.equality resource r = false) →
      release poolState resource now
        = (.error (.resourceNotPartOfPool
              "Given resource was not part of this pool"), poolState))
    ∧ ((release poolState resource now).1
          = .error (.resourceNotPartOfPool
              "Given resource was not part of this pool")
        ↔ ∀ r ∈ poolState.resources,
            releasePred poolState.equality resource r = false)
    ∧ (∀ i (hi : i < poolState.resources.length) (robj : Resource T),
        poolState.resources.findIdx
            (releasePred poolState.equality resource) = i →
        poolState.resources.get ⟨i, hi⟩ = .res robj →
        release poolState resource now
          = (.ok (),
             { poolState with
                 resources := poolState.resources.set i
                   (.res { robj with returnedAt := some now }) })) := by
  refine ⟨fun h => release_eq_of_not_found _ _ _ h, ⟨?_, ?_⟩,
    fun i hi robj hf hg => release_eq_of_found _ _ _ i hi robj hf hg⟩
  · intro herr
    by_contra hnot
    push_neg at hnot
    obtain ⟨r, hr, hpr⟩ := hnot
    have hpr' : releasePred poolState.equality resource r = true := by
      simpa using hpr
    have hlt : poolState.resources.findIdx
        (releasePred poolState.equality resource)
          < poolState.resources.length :=
      List.findIdx_lt_length_of_exists ⟨r, hr, hpr'⟩
    have hp : releasePred poolState.equality resource
        (poolState.resources.get
          ⟨poolState.resources.findIdx
              (releasePred poolState.equality resource), hlt⟩) = true := by
      simpa [List.get_eq_getElem] using
        @List.findIdx_getElem _ (releasePred poolState.equality resource)
          poolState.resources hlt
    cases hget : poolState.resources.get
        ⟨poolState.resources.findIdx
            (releasePred poolState.equality resource), hlt⟩ with
    | res robj =>
        rw [release_eq_of_found poolState resource now _ hlt robj rfl hget]
          at herr
        simp at herr
    | reservedSlot => rw [hget] at hp; simp [releasePred] at hp
    | emptySlot => rw [hget] at hp; simp [releasePred] at hp
  · intro h
    rw [release_eq_of_not_found _ _ _ h]

/-- Witness for C7: releasing `6` into a pool whose only busy slot holds
`5` fails with `ResourceNotPartOfPoolError` and changes nothing; releasing
`5` stamps the slot's `returnedAt`. -/
theorem claim_C7_witness :
    release demoBusyState 6 100
      = (.error (.resourceNotPartOfPool
            "Given resource was not part of this pool"), demoBusyState)
    ∧ release demoBusyState 5 100
      = (.ok (), { demoBusyState with resources := [.res ⟨5, some 100⟩] }) :=
  ⟨(claim_C7_release_not_part_of_pool demoBusyState 6 100).1 (by decide),
   (claim_C7_release_not_part_of_pool demoBusyState 5 100).2.2 0 (by decide)
     ⟨5, none⟩ rfl rfl⟩

/-- **C8.** When the pool holds an Occupied-Free slot, `acquire` returns
the resource of the first (leftmost) such slot and clears its `returnedAt`
(the `reused` outcome never invokes the create callback); in particular,
on a pool with no Occupied-Free slot, acquiring right after a successful
`release` of an equality-matched value returns that exact value with no
creation. -/
theorem claim_C8_acquire_reuses_first_free {T : Type}
    (poolState : ResourcePoolState T) :
    (∀ (i : Nat) (hi : i < poolState.resources.length) (robj : Resource T)
        (t : Int),
      poolState.resources.findIdx isAvailableForReuse = i →
      poolState.resources.get ⟨i, hi⟩ = .res robj →
      robj.returnedAt = some t →
      acquire poolState
        = (.reused robj.resource,
           { poolState with
               resources := poolState.resources.set i
                 (.res { robj with returnedAt := none }) }))
    ∧ (∀ (v : T) (now : Int) (i : Nat)
        (hi : i < poolState.resources.length) (robj : Resource T),
        (∀ r ∈ poolState.resources, isAvailableForReuse r = false) →
        poolState.resources.findIdx (releasePred poolState.equality v) = i →
        poolState.resources.get ⟨i, hi⟩ = .res robj →
        (∀ x y, poolState.equality x y = true → x = y) →
        (acquire ((release poolState v now).2)).1
          = AcquireSyncOutcome.reused v) := by
  constructor
  · intro i hi robj t hfind hget _ht
    exact acquire_eq_of_found_free poolState i hi robj hfind hget
  · intro v now i hi robj hNoFree hfind hget hinj
    subst hfind
    have hpred : releasePred poolState.equality v
        (poolState.resources.get
          ⟨poolState.resources.findIdx (releasePred poolState.equality v),
           hi⟩) = true := by
      simpa [List.get_eq_getElem] using
        @List.findIdx_getElem _ (releasePred poolState.equality v)
          poolState.resources hi
    rw [hget] at hpred
    have heqv : poolState.equality robj.resource v = true := by
      simp only [releasePred, Bool.and_eq_true] at hpred
      exact hpred.2
    have hres : robj.resource = v := hinj _ _ heqv
    rw [release_eq_of_found poolState v now _ hi robj rfl hget]
    have hlen : poolState.resources.findIdx (releasePred poolState.equality v)
        < (poolState.resources.set
            (poolState.resources.findIdx (releasePred poolState.equality v))
            (.res { robj with returnedAt := some now })).length := by
      simpa using hi
    have hfind' : (poolState.resources.set
          (poolState.resources.findIdx (releasePred poolState.equality v))
          (.res { robj with returnedAt := some now })).findIdx
            isAvailableForReuse
        = poolState.resources.findIdx (releasePred poolState.equality v) :=
      findIdx_set_of_all_false _ _ _ _ hNoFree
        (by simp [isAvailableForReuse]) hi
    have hget' : (poolState.resources.set
          (poolState.resources.findIdx (releasePred poolState.equality v))
          (.res { robj with returnedAt := some now })).get
            ⟨poolState.resources.findIdx (releasePred poolState.equality v),
             hlen⟩
        = .res { robj with returnedAt := some now } := by
      simp [List.get_eq_getElem, List.getElem_set_self]
    rw [acquire_eq_of_found_free _ _ hlen _ hfind' hget']
    simp [hres]

/-- Witness for C8: acquiring from a pool with one idle slot returns its
value `5` and marks it busy; releasing `5` into `demoBusyState` and
acquiring again returns `5` without creation. -/
theorem claim_C8_witness :
    acquire demoFreeState
      = (.reused 5, { demoFreeState with resources := [.res ⟨5, none⟩] })
    ∧ (acquire ((release demoBusyState 5 100).2)).1
        = AcquireSyncOutcome.reused 5 :=
  ⟨(claim_C8_acquire_reuses_first_free demoFreeState).1 0 (by decide)
      ⟨5, some 50⟩ 50 rfl rfl rfl,
   (claim_C8_acquire_reuses_first_free demoBusyState).2 5 100 0 (by decide)
      ⟨5, none⟩ (by decide) (by decide) rfl
      (fun x y h => by simpa [demoBusyState] using h)⟩

/-- **C1.** A failing creation sets exactly its own Reserved slot back to
Empty and propagates the error; every other slot is untouched.  In the
concrete two-acquire scenario on an empty unbounded pool, the first
creation failing and the second succeeding leaves exactly one occupied
resource. -/
theorem claim_C1_creation_failure_isolated {T : Type}
    (poolState : ResourcePoolState T) (idx : Nat) (e : PoolError)
    (hidx : idx < poolState.resources.length)
    (_hres : poolState.resources.get ⟨idx, hidx⟩ = .reservedSlot) :
    (acquireAsync poolState idx (.error e)
        = (.error e,
           { poolState with
               resources := poolState.resources.set idx .emptySlot }))
    ∧ (∀ j, j ≠ idx →
        (poolState.resources.set idx
            ResourcePoolStateArrayItem.emptySlot)[j]?
          = poolState.resources[j]?)
    ∧ (acquire scenario0 = (.creationStarted 0, scenario1)
    ∧ acquire scenario1 = (.creationStarted 1, scenario2)
    ∧ acquireAsync scenario2 0 (.error (.otherError 7))
        = (.error (.otherError 7), scenario3)
    ∧ acquireAsync scenario3 1 (.ok 42) = (.ok 42, scenario4)
    ∧ getCurrentResourceCount scenario4.resources = 1) := by
  have hset : setSlot poolState.resources idx .emptySlot
      = poolState.resources.set idx .emptySlot := by
    unfold setSlot
    rw [if_pos hidx]
  refine ⟨by unfold acquireAsync; rw [hset], fun j hj => ?_,
    rfl, rfl, rfl, rfl, rfl⟩
  rw [List.getElem?_set, if_neg (Ne.symm hj)]

/-- Witness for C1: the failing creation at the reserved index 0 of
`scenario2` empties exactly slot 0 and leaves slot 1's reservation
intact. -/
theorem claim_C1_witness :
    acquireAsync scenario2 0 (.error (.otherError 7))
      = (.error (.otherError 7),
         { scenario2 with resources := scenario2.resources.set 0 .emptySlot })
    ∧ (scenario2.resources.set 0 ResourcePoolStateArrayItem.emptySlot)[1]?
      = scenario2.resources[1]? :=
  ⟨(claim_C1_creation_failure_isolated scenario2 0 (.otherError 7)
      (by decide) rfl).1,
   (claim_C1_creation_failure_isolated scenario2 0 (.otherError 7)
      (by decide) rfl).2.1 1 (by decide)⟩

/-- The `reduce` of `createRunEviction` computes exactly the partition
described by the specification: evicted values are the resources of the
eligible slots, retained slots are the remaining non-Empty slots, both in
index order. -/
theorem evictionPartition_eq_filter {T : Type} (minCount : Int)
    (shouldEvict : ResourceIdleTimeCustomizationFunctionInput T → Bool)
    (now : Int) (l : List (ResourcePoolStateArrayItem T)) :
    ∀ idx : Nat,
      evictionPartition minCount shouldEvict now l idx
        = ((List.enumFrom idx l).filterMap
             (fun p =>
               if eligibleForEviction minCount shouldEvict now p.1 p.2
               then slotResource? p.2 else none),
           ((List.enumFrom idx l).filter
             (fun p =>
               !eligibleForEviction minCount shouldEvict now p.1 p.2
                 && !isEmptySlot p.2)).map Prod.snd) := by
  induction l with
  | nil => intro idx; simp [evictionPartition]
  | cons r rest ih =>
      intro idx
      rw [List.enumFrom_cons, List.filterMap_cons, List.filter_cons]
      cases r with
      | res robj =>
          cases hret : robj.returnedAt with
          | some t =>
              by_cases hcond : (decide ((idx : Int) ≥ minCount)
                  && shouldEvict ⟨t, now, robj.resource⟩) = true
              · simp [evictionPartition, hret, eligibleForEviction,
                  slotResource?, isEmptySlot, ih (idx + 1), hcond]
              · rw [Bool.not_eq_true] at hcond
                simp [evictionPartition, hret, eligibleForEviction,
                  slotResource?, isEmptySlot, ih (idx + 1), hcond]
          | none =>
              simp [evictionPartition, hret, eligibleForEviction,
                slotResource?, isEmptySlot, ih (idx + 1)]
      | reservedSlot =>
          simp [evictionPartition, eligibleForEviction, slotResource?,
            isEmptySlot, ih (idx + 1)]
      | emptySlot =>
          simp [evictionPartition, eligibleForEviction, slotResource?,
            isEmptySlot, ih (idx + 1)]

/-- **C5.** `runEviction` retains exactly the non-Empty slots that are not
eviction-eligible (eligibility = positional index at least `minCount` AND
Occupied-Free AND policy accepts), deletes exactly the eligible ones, and
the numeric idle policy means `now - returnedAt ≥ threshold` against the
single time snapshot `now`. -/
theorem claim_C5_eviction_eligibility {T : Type}
    (poolState : ResourcePoolState T)
    (resourceIdleTime : ResourceIdleTimeCustomization T) (now : Int)
    (destroy : T → Option PoolError) :
    ((runEviction poolState resourceIdleTime now destroy).2.resources
        = ((List.enumFrom 0 poolState.resources).filter
             (fun p =>
               !eligibleForEviction poolState.minCount
                   (toShouldEvict resourceIdleTime) now p.1 p.2
                 && !isEmptySlot p.2)).map Prod.snd)
    ∧ ((runEviction poolState resourceIdleTime now destroy).1.resourcesDeleted
        = ((List.enumFrom 0 poolState.resources).filterMap
             (fun p =>
               if eligibleForEviction poolState.minCount
                   (toShouldEvict resourceIdleTime) now p.1 p.2
               then slotResource? p.2 else none)).length)
    ∧ (∀ (ms t : Int) (r : T),
        toShouldEvict (.idleTimeMs ms)
            (⟨t, now, r⟩ : ResourceIdleTimeCustomizationFunctionInput T)
          = decide (now - t ≥ ms)) := by
  have h := evictionPartition_eq_filter poolState.minCount
    (toShouldEvict resourceIdleTime) now poolState.resources 0
  refine ⟨?_, ?_, fun ms t r => rfl⟩
  · show (evictionPartition poolState.minCount
        (toShouldEvict resourceIdleTime) now poolState.resources 0).2 = _
    rw [h]
  · show ((evictionPartition poolState.minCount
        (toShouldEvict resourceIdleTime) now poolState.resources 0).1.map
          destroy).length = _
    rw [h, List.length_map]

/-- Collecting the successes of a list of always-`some` results keeps every
element. -/
theorem filterMap_id_map_some {α β : Type} (f : α → β) (l : List α) :
    ((l.map (fun r => some (f r))).filterMap id).length = l.length := by
  induction l with
  | nil => rfl
  | cons a rest ih => simp [ih]

/-- Collecting the successes of a list of always-`none` results keeps
nothing. -/
theorem filterMap_id_map_none {α β : Type} (l : List α) :
    (l.map (fun _ => (none : Option β))).filterMap id = [] := by
  induction l with
  | nil => rfl
  | cons a rest ih => simp [ih]

/-- When every slot is Occupied-Free, the positional floor is inactive and
the policy accepts every swept slot's input at the snapshot `now`, the
eviction sweep evicts every slot and retains none. -/
theorem evictionPartition_all_evicted {T : Type} (minCount : Int)
    (shouldEvict : ResourceIdleTimeCustomizationFunctionInput T → Bool)
    (now : Int) (hmin : minCount ≤ 0) :
    ∀ l : List (ResourcePoolStateArrayItem T),
      (∀ r ∈ l, isAvailableForReuse r = true) →
      (∀ robj : Resource T, .res robj ∈ l → ∀ t, robj.returnedAt = some t →
        shouldEvict ⟨t, now, robj.resource⟩ = true) →
      ∀ idx : Nat,
        (evictionPartition minCount shouldEvict now l idx).1.length = l.length
        ∧ (evictionPartition minCount shouldEvict now l idx).2 = [] := by
  intro l
  induction l with
  | nil => intro _ _ idx; simp [evictionPartition]
  | cons r rest ih =>
      intro hfree hacc idx
      have hr := hfree r (List.mem_cons_self r rest)
      have ihx := ih (fun x hx => hfree x (List.mem_cons_of_mem r hx))
        (fun robj hm t ht => hacc robj (List.mem_cons_of_mem r hm) t ht)
        (idx + 1)
      cases r with
      | res robj =>
          cases hret : robj.returnedAt with
          | some t =>
              have hse : shouldEvict ⟨t, now, robj.resource⟩ = true :=
                hacc robj (List.mem_cons_self _ rest) t hret
              have hcond : (decide ((idx : Int) ≥ minCount)
                  && shouldEvict ⟨t, now, robj.resource⟩) = true := by
                rw [hse]
                simp only [Bool.and_true, decide_eq_true_eq]
                calc minCount ≤ 0 := hmin
                  _ ≤ (idx : Int) := by exact_mod_cast Nat.zero_le idx
              simp [evictionPartition, hret, hcond, ihx.1, ihx.2]
          | none =>
              rw [isAvailableForReuse] at hr
              rw [hret] at hr
              simp at hr
      | reservedSlot => simp [isAvailableForReuse] at hr
      | emptySlot => simp [isAvailableForReuse] at hr

/-- **C4 counterexample.** The claim quantifies over every pool containing
`N` policy-accepted Occupied-Free slots with no condition on `minCount`;
but with `minCount = 1` the positional floor of `createRunEviction`
(`idx >= state.minCount`) retains the accepted free slot at index `0`, so
`resourcesDeleted` is `0` instead of `N = 1` and the post-sweep count is
`1` instead of `0`. -/
theorem claim_C4_counterexample :
    (runEviction demoFloorState (.custom fun _ => true) 60
        (fun _ => some (.otherError 1))).1.resourcesDeleted = 0
    ∧ (runEviction demoFloorState (.custom fun _ => true) 60
        (fun _ => some (.otherError 1))).2.resources = [.res ⟨5, some 50⟩]
    ∧ getCurrentResourceCount
        (runEviction demoFloorState (.custom fun _ => true) 60
          (fun _ => some (.otherError 1))).2.resources = 1
    ∧ ¬ ((runEviction demoFloorState (.custom fun _ => true) 60
          (fun _ => some (.otherError 1))).1.resourcesDeleted
        = demoFloorState.resources.length)
    ∧ ¬ (getCurrentResourceCount
          (runEviction demoFloorState (.custom fun _ => true) 60
            (fun _ => some (.otherError 1))).2.resources = 0) :=
  ⟨rfl, rfl, rfl, by decide, by decide⟩

/-- **C4 (amended).** On a pool of `N` Occupied-Free slots whose positional
eviction floor is inactive (`minCount ≤ 0`) and all accepted by the policy
at the sweep snapshot, `runEviction` reports `resourcesDeleted = N`
regardless of destroy outcomes, empties the slot bookkeeping (count `0`),
collects one error per failing destroy (`N` when destroy always throws,
none when it always succeeds), and the post-sweep state never depends on
the destroy outcomes (the bookkeeping is updated before any destroy result
is consulted); `runEviction` is a total function, so it never raises. -/
theorem claim_C4_eviction_failure_collection {T : Type}
    (poolState : ResourcePoolState T)
    (resourceIdleTime : ResourceIdleTimeCustomization T) (now : Int)
    (hfree : ∀ r ∈ poolState.resources, isAvailableForReuse r = true)
    (hmin : poolState.minCount ≤ 0)
    (hacc : ∀ robj : Resource T, .res robj ∈ poolState.resources →
      ∀ t, robj.returnedAt = some t →
        toShouldEvict resourceIdleTime ⟨t, now, robj.resource⟩ = true) :
    (∀ destroy : T → Option PoolError,
      (runEviction poolState resourceIdleTime now destroy).1.resourcesDeleted
        = poolState.resources.length)
    ∧ (∀ destroy : T → Option PoolError,
      (runEviction poolState resourceIdleTime now destroy).2.resources = [])
    ∧ (∀ destroy : T → Option PoolError,
      getCurrentResourceCount
          (runEviction poolState resourceIdleTime now destroy).2.resources
        = 0)
    ∧ (∀ errOf : T → PoolError,
      ((runEviction poolState resourceIdleTime now
          (fun r => some (errOf r))).1.errors).length
        = poolState.resources.length)
    ∧ ((runEviction poolState resourceIdleTime now (fun _ => none)).1.errors
        = [])
    ∧ (∀ (st : ResourcePoolState T) (idle : ResourceIdleTimeCustomization T)
        (now2 : Int) (d1 d2 : T → Option PoolError),
      (runEviction st idle now2 d1).2 = (runEviction st idle now2 d2).2) := by
  have hpart := evictionPartition_all_evicted poolState.minCount
    (toShouldEvict resourceIdleTime) now hmin poolState.resources hfree hacc 0
  refine ⟨fun destroy => ?_, fun destroy => hpart.2, fun destroy => ?_,
    fun errOf => ?_, ?_, fun st idle now2 d1 d2 => rfl⟩
  · show ((evictionPartition poolState.minCount
        (toShouldEvict resourceIdleTime) now poolState.resources 0).1.map
          destroy).length = _
    rw [List.length_map]
    exact hpart.1
  · show getCurrentResourceCount (evictionPartition poolState.minCount
        (toShouldEvict resourceIdleTime) now poolState.resources 0).2 = 0
    rw [hpart.2]
    rfl
  · show (((evictionPartition poolState.minCount
        (toShouldEvict resourceIdleTime) now poolState.resources 0).1.map
          (fun r => some (errOf r))).filterMap id).length = _
    rw [filterMap_id_map_some]
    exact hpart.1
  · show ((evictionPartition poolState.minCount
        (toShouldEvict resourceIdleTime) now poolState.resources 0).1.map
          (fun _ => (none : Option PoolError))).filterMap id = _
    rw [filterMap_id_map_none]

/-- Witness for the amended C4: evicting the single idle slot of
`demoFreeState` (whose `minCount` is `0`) under an always-accepting policy
and an always-throwing destroy deletes one resource, collects one error,
and leaves a count of zero. -/
theorem claim_C4_witness :
    (runEviction demoFreeState (.custom fun _ => true) 60
        (fun _ => some (.otherError 1))).1.resourcesDeleted = 1
    ∧ ((runEviction demoFreeState (.custom fun _ => true) 60
        (fun _ => some (.otherError 1))).1.errors).length = 1
    ∧ getCurrentResourceCount
        (runEviction demoFreeState (.custom fun _ => true) 60
          (fun _ => some (.otherError 1))).2.resources = 0 := by
  have h := claim_C4_eviction_failure_collection demoFreeState
    (.custom fun _ => true) 60 (by decide) (by decide)
    (fun robj hm t ht => rfl)
  exact ⟨h.1 _, h.2.2.2.1 (fun _ => .otherError 1), h.2.2.1 _⟩

/-- One loop step: a successful underlying acquire ends the run at the
current attempt. -/
theorem acquireWithRetryGo_ok {T : Type} (acquire : Nat → Except PoolError T)
    (retryFunctionality : DynamicRetryFunctionality) (fuel k : Nat)
    (r : T) (h : acquire k = .ok r) :
    acquireWithRetryGo acquire retryFunctionality (fuel + 1) k
      = some (.ok r, k) := by
  unfold acquireWithRetryGo
  rw [h]

/-- One loop step: when the policy answers with an `Error`, the run ends at
the current attempt, throwing that error. -/
theorem acquireWithRetryGo_final {T : Type}
    (acquire : Nat → Except PoolError T)
    (retryFunctionality : DynamicRetryFunctionality) (fuel k : Nat)
    (e finalError : PoolError) (h : acquire k = .error e)
    (hp : retryFunctionality ⟨e, k⟩ = .inr finalError) :
    acquireWithRetryGo acquire retryFunctionality (fuel + 1) k
      = some (.error finalError, k) := by
  unfold acquireWithRetryGo
  rw [h]
  simp [hp]

/-- One loop step: when the policy answers with `RetryParameters`, the loop
continues at the next attempt. -/
theorem acquireWithRetryGo_retry {T : Type}
    (acquire : Nat → Except PoolError T)
    (retryFunctionality : DynamicRetryFunctionality) (fuel k : Nat)
    (e : PoolError) (params : RetryParameters) (h : acquire k = .error e)
    (hp : retryFunctionality ⟨e, k⟩ = .inl params) :
    acquireWithRetryGo acquire retryFunctionality (fuel + 1) k
      = acquireWithRetryGo acquire retryFunctionality fuel (k + 1) := by
  simp only [acquireWithRetryGo]
  rw [h]
  simp [hp]

/-- The shape of the policy produced by `dynamicFromStatic` for a positive
`retryCount = n`: pass through non-PoolFull errors, retry PoolFull errors
while the attempt count is at most `n`, then give up with
`NoMoreRetriesLeftError`. -/
theorem dynamicFromStatic_spec (s : StaticRetryFunctionality) (n : Nat)
    (hn : 1 ≤ n) (hs : s.retryCount = (n : Int))
    (d : DynamicRetryFunctionality) (hd : dynamicFromStatic s = some d) :
    (∀ (e : PoolError) (k : Nat), e.isResourcePoolFull = false →
      d ⟨e, k⟩ = .inr e)
    ∧ (∀ (msg : String) (k : Nat), k ≤ n →
      d ⟨.resourcePoolFull msg, k⟩ = .inl ⟨s.waitBeforeRetryMs⟩)
    ∧ (∀ (msg : String) (k : Nat), k > n →
      d ⟨.resourcePoolFull msg, k⟩
        = .inr (.noMoreRetriesLeft k (.resourcePoolFull msg))) := by
  have hmax : max s.retryCount 0 = (n : Int) := by
    rw [hs]
    exact max_eq_left (by exact_mod_cast Nat.zero_le n)
  have hpos : (0 : Int) < max s.retryCount 0 := by
    rw [hmax]
    exact_mod_cast hn
  unfold dynamicFromStatic at hd
  rw [if_pos hpos] at hd
  have hd' := (Option.some.injEq _ _).mp hd
  subst hd'
  refine ⟨fun e k he => ?_, fun msg k hk => ?_, fun msg k hk => ?_⟩
  · simp [he]
  · have : ¬ ((k : Int) > max s.retryCount 0) := by
      rw [hmax]
      simp only [not_lt]
      exact_mod_cast hk
    simp [PoolError.isResourcePoolFull, this]
  · have : (k : Int) > max s.retryCount 0 := by
      rw [hmax]
      exact_mod_cast hk
    simp [PoolError.isResourcePoolFull, this]

/-- Exhaustion run of the static policy: from attempt `k` on, all
underlying attempts up to `n + 1` fail with PoolFull, so the loop retries
until attempt `n + 1` and gives up there. -/
theorem acquireWithRetryGo_exhausts {T : Type}
    (acquire : Nat → Except PoolError T) (n : Nat) (hn : 1 ≤ n)
    (s : StaticRetryFunctionality) (hs : s.retryCount = (n : Int))
    (d : DynamicRetryFunctionality) (hd : dynamicFromStatic s = some d)
    (msg : Nat → String)
    (hall : ∀ i, 1 ≤ i → i ≤ n + 1 → acquire i
      = .error (.resourcePoolFull (msg i))) :
    ∀ (fuel k : Nat), 1 ≤ k → k ≤ n + 1 → n + 2 - k ≤ fuel →
      acquireWithRetryGo acquire d fuel k
        = some (.error (.noMoreRetriesLeft (n + 1)
            (.resourcePoolFull (msg (n + 1)))), n + 1) := by
  obtain ⟨-, hretry, hgiveup⟩ := dynamicFromStatic_spec s n hn hs d hd
  intro fuel
  induction fuel with
  | zero => intro k _ _ hfuel; omega
  | succ fuel ih =>
      intro k hk1 hkn hfuel
      rcases Nat.lt_or_ge k (n + 1) with hlt | hge
      · rw [acquireWithRetryGo_retry acquire d fuel k _ ⟨s.waitBeforeRetryMs⟩
          (hall k hk1 (by omega)) (hretry (msg k) k (by omega))]
        exact ih (k + 1) (by omega) (by omega) (by omega)
      · have hk : k = n + 1 := by omega
        subst hk
        rw [acquireWithRetryGo_final acquire d fuel (n + 1) _ _
          (hall (n + 1) (by omega) (by omega))
          (hgiveup (msg (n + 1)) (n + 1) (by omega))]

/-- Successful run of the static policy: PoolFull failures up to attempt
`k ≤ n` are retried, and the success at attempt `k + 1` ends the run. -/
theorem acquireWithRetryGo_succeeds {T : Type}
    (acquire : Nat → Except PoolError T) (n : Nat) (hn : 1 ≤ n)
    (s : StaticRetryFunctionality) (hs : s.retryCount = (n : Int))
    (d : DynamicRetryFunctionality) (hd : dynamicFromStatic s = some d)
    (msg : Nat → String) (k : Nat) (hkn : k ≤ n) (r : T)
    (hfail : ∀ i, 1 ≤ i → i ≤ k → acquire i
      = .error (.resourcePoolFull (msg i)))
    (hok : acquire (k + 1) = .ok r) :
    ∀ (fuel j : Nat), 1 ≤ j → j ≤ k + 1 → k + 2 - j ≤ fuel →
      acquireWithRetryGo acquire d fuel j = some (.ok r, k + 1) := by
  obtain ⟨-, hretry, -⟩ := dynamicFromStatic_spec s n hn hs d hd
  intro fuel
  induction fuel with
  | zero => intro j _ _ hfuel; omega
  | succ fuel ih =>
      intro j hj1 hjk hfuel
      rcases Nat.lt_or_ge j (k + 1) with hlt | hge
      · rw [acquireWithRetryGo_retry acquire d fuel j _ ⟨s.waitBeforeRetryMs⟩
          (hfail j hj1 (by omega)) (hretry (msg j) j (by omega))]
        exact ih (j + 1) (by omega) (by omega) (by omega)
      · have hj : j = k + 1 := by omega
        subst hj
        exact acquireWithRetryGo_ok acquire d fuel (k + 1) r hok

/-- **C3.** For a static retry configuration with `retryCount = n ≥ 1`:
a failure at any attempt whose error is not PoolFull is rethrown at that
attempt with no further underlying invocation; PoolFull failures are
retried while the 1-based attempt count is at most `n` (so a success at
attempt `k + 1 ≤ n + 1` is returned after exactly `k + 1` invocations);
and when every attempt fails with PoolFull, the run ends with a
`NoMoreRetriesLeftError` wrapping the last underlying error and the
attempt count `n + 1`, after exactly `n + 1` underlying invocations. -/
theorem claim_C3_static_retry {T : Type} (n : Nat) (hn : 1 ≤ n)
    (s : StaticRetryFunctionality) (hs : s.retryCount = (n : Int))
    (d : DynamicRetryFunctionality) (hd : dynamicFromStatic s = some d) :
    (∀ (acquire : Nat → Except PoolError T) (e : PoolError) (fuel k : Nat),
      e.isResourcePoolFull = false → acquire k = .error e →
      acquireWithRetryGo acquire d (fuel + 1) k = some (.error e, k))
    ∧ (∀ (acquire : Nat → Except PoolError T) (msg : Nat → String)
        (k : Nat) (r : T) (fuel : Nat),
      k ≤ n →
      (∀ i, 1 ≤ i → i ≤ k → acquire i = .error (.resourcePoolFull (msg i))) →
      acquire (k + 1) = .ok r →
      k + 1 ≤ fuel →
      acquireWithRetry acquire d fuel = some (.ok r, k + 1))
    ∧ (∀ (acquire : Nat → Except PoolError T) (msg : Nat → String)
        (fuel : Nat),
      (∀ i, 1 ≤ i → i ≤ n + 1 →
        acquire i = .error (.resourcePoolFull (msg i))) →
      n + 1 ≤ fuel →
      acquireWithRetry acquire d fuel
        = some (.error (.noMoreRetriesLeft (n + 1)
            (.resourcePoolFull (msg (n + 1)))), n + 1)) := by
  obtain ⟨hpass, -, -⟩ := dynamicFromStatic_spec s n hn hs d hd
  refine ⟨fun acquire e fuel k he hk => ?_, fun acquire msg k r fuel hkn
    hfail hok hfuel => ?_, fun acquire msg fuel hall hfuel => ?_⟩
  · exact acquireWithRetryGo_final acquire d fuel k e e hk (hpass e k he)
  · exact acquireWithRetryGo_succeeds acquire n hn s hs d hd msg k hkn r
      hfail hok fuel 1 (by omega) (by omega) (by omega)
  · exact acquireWithRetryGo_exhausts acquire n hn s hs d hd msg hall
      fuel 1 (by omega) (by omega) (by omega)

/-- Witness for C3 with `{retryCount: 1, waitBeforeRetryMs: 0}`: a
non-PoolFull error passes through at attempt 1; an acquire failing with
PoolFull once then succeeding returns the resource after 2 invocations;
an always-PoolFull acquire exhausts after exactly 2 invocations. -/
theorem claim_C3_witness :
    acquireWithRetryGo (T := Nat) (fun _ => .error (.otherError 3))
        demoStaticPolicy 3 1
      = some (.error (.otherError 3), 1)
    ∧ acquireWithRetry (T := Nat)
        (fun i => if i ≤ 1 then .error (.resourcePoolFull "full")
                  else .ok 42)
        demoStaticPolicy 2
      = some (.ok 42, 2)
    ∧ acquireWithRetry (T := Nat) (fun _ => .error (.resourcePoolFull "full"))
        demoStaticPolicy 2
      = some (.error (.noMoreRetriesLeft 2 (.resourcePoolFull "full")), 2) := by
  have h := claim_C3_static_retry (T := Nat) 1 (by omega) ⟨⟨0⟩, 1⟩ rfl
    demoStaticPolicy rfl
  refine ⟨h.1 (fun _ => .error (.otherError 3)) (.otherError 3) 2 1 rfl rfl,
    h.2.1 (fun i => if i ≤ 1 then .error (.resourcePoolFull "full")
        else .ok 42)
      (fun _ => "full") 1 42 2 (by omega) (fun i h1 hk => ?_) rfl (by omega),
    h.2.2 (fun _ => .error (.resourcePoolFull "full")) (fun _ => "full") 2
      (fun i _ _ => rfl) (by omega)⟩
  have hi : i = 1 := by omega
  subst hi
  rfl

/-- **C9.** Wrapping an already-retry-wrapped pool unwraps the inner
decoration first: the result of the double wrap is one
`PoolWithRetryFunctionality` layer over the innermost undecorated pool,
running policy `f2` alone (the structural equality mentions only `d2`, so
`f1`'s policy never executes), its acquire is the retry loop of the
undecorated pool's acquire under `d2`, and its release is exactly the
undecorated pool's release (which is `p`'s release unwrapped). -/
theorem claim_C9_double_wrap_unwraps {T : Type} (p : ResourcePoolObject T)
    (f1 f2 : RetryFunctionality) (d1 d2 : DynamicRetryFunctionality)
    (h1 : getRetryInfo f1 = some d1) (h2 : getRetryInfo f2 = some d2) :
    (augmentWithRetry (augmentWithRetry p f1) f2
        = .withRetryFunctionality (getOriginalPool p) d2)
    ∧ (augmentWithRetry (augmentWithRetry p f1) f2).releaseFn
        = p.releaseFn
    ∧ (∀ fuel : Nat,
      (augmentWithRetry (augmentWithRetry p f1) f2).runAcquire fuel
        = acquireWithRetry (getOriginalPool p).acquire d2 fuel) := by
  have hstep : augmentWithRetry (augmentWithRetry p f1) f2
      = .withRetryFunctionality (getOriginalPool p) d2 := by
    unfold augmentWithRetry
    rw [h1, h2]
    cases p <;> rfl
  refine ⟨hstep, ?_, fun fuel => ?_⟩
  · rw [hstep]
    cases p <;> rfl
  · rw [hstep]
    rfl

/-- Witness for C9: double-wrapping the plain demo pool with two one-retry
static configurations yields a single layer running the outer policy over
the undecorated pool, and its release is the undecorated release. -/
theorem claim_C9_witness :
    augmentWithRetry
        (augmentWithRetry (.plain demoPlainPool) (.dynamic demoStaticPolicy))
        (.dynamic (fun args => .inr args.error))
      = .withRetryFunctionality demoPlainPool (fun args => .inr args.error)
    ∧ (augmentWithRetry
        (augmentWithRetry (.plain demoPlainPool) (.dynamic demoStaticPolicy))
        (.dynamic (fun args => .inr args.error))).releaseFn
      = (ResourcePoolObject.plain demoPlainPool).releaseFn :=
  ⟨(claim_C9_double_wrap_unwraps (.plain demoPlainPool)
      (.dynamic demoStaticPolicy) (.dynamic (fun args => .inr args.error))
      demoStaticPolicy (fun args => .inr args.error) rfl rfl).1,
   (claim_C9_double_wrap_unwraps (.plain demoPlainPool)
      (.dynamic demoStaticPolicy) (.dynamic (fun args => .inr args.error))
      demoStaticPolicy (fun args => .inr args.error) rfl rfl).2.1⟩

/-- **C10 counterexample.** The claim says `augmentWithRetry` with a
non-positive static `retryCount` always returns a pool on which
`poolIsWithRetryFunctionality` reports `false`; but on an already-wrapped
pool it returns that pool itself, which still reports `true`. -/
theorem claim_C10_counterexample :
    augmentWithRetry demoWrappedPool (.static demoZeroRetryConfig)
      = demoWrappedPool
    ∧ poolIsWithRetryFunctionality
        (augmentWithRetry demoWrappedPool (.static demoZeroRetryConfig))
      = true := by
  constructor <;> rfl

/-- **C10 (amended).** With a static `retryCount ≤ 0`, `augmentWithRetry`
returns the given pool object itself, unchanged (no retry layer is
created); hence when the given pool is not itself retry-augmented,
`poolIsWithRetryFunctionality` reports `false` on the result. -/
theorem claim_C10_nonpositive_retryCount_noop {T : Type}
    (p : ResourcePoolObject T) (s : StaticRetryFunctionality)
    (h : s.retryCount ≤ 0) :
    augmentWithRetry p (.static s) = p
    ∧ (poolIsWithRetryFunctionality p = false →
        poolIsWithRetryFunctionality (augmentWithRetry p (.static s))
          = false) := by
  have hnone : dynamicFromStatic s = none := by
    unfold dynamicFromStatic
    rw [if_neg]
    simp only [not_lt]
    exact max_le h le_rfl
  have heq : augmentWithRetry p (.static s) = p := by
    unfold augmentWithRetry
    show (match getRetryInfo (.static s) with
      | some getRetryInfoFn =>
          ResourcePoolObject.withRetryFunctionality (getOriginalPool p)
            getRetryInfoFn
      | none => p) = p
    rw [show getRetryInfo (.static s) = none from hnone]
  exact ⟨heq, fun hp => by rw [heq]; exact hp⟩

/-- Witness for the amended C10: on the plain demo pool, a zero-retry
static configuration is a no-op and the result reports no retry
functionality. -/
theorem claim_C10_witness :
    augmentWithRetry (.plain demoPlainPool) (.static demoZeroRetryConfig)
      = .plain demoPlainPool
    ∧ poolIsWithRetryFunctionality
        (augmentWithRetry (.plain demoPlainPool)
          (.static demoZeroRetryConfig))
      = false :=
  ⟨(claim_C10_nonpositive_retryCount_noop (.plain demoPlainPool)
      demoZeroRetryConfig (by decide)).1,
   (claim_C10_nonpositive_retryCount_noop (.plain demoPlainPool)
      demoZeroRetryConfig (by decide)).2 rfl⟩
